import Mathlib

/-!
Verification of the content-server deployment core of the catalyst repository.

The definitions below shallowly embed the TypeScript sources:
  * `src/content/src/service/ServiceImpl.ts` (deploy orchestrator, storage
    bookkeeping, status query);
  * `src/content/src/blacklist/BlacklistServiceDecorator.ts`;
  * `src/content/src/service/synchronization/clients/contentserver/RedirectContentServerClient.ts`.
Promises become plain values, thrown errors become `Except String`, JS `Map`s
become association lists looked up by first match, and `Date.now()` /
peer-provided timestamps become explicit integer arguments.  Components whose
code is not part of the staged sources (the `PointerManager`, the
`HistoryManager`, and the `Validations` predicate set, of which only the unit
tests are staged) are modelled from the spec and say so in their doc comments.
-/

/-- An uploaded file: a name and its raw bytes (`File` of `Service.ts`). -/
structure File where
  name : String
  content : List Nat
deriving DecidableEq

/-- Entity descriptor (`Entity.ts`): id (content hash), type, pointers,
client-supplied timestamp, and the content map (logical name ↦ file hash).
The TS `content` may be `undefined`; both `undefined` and an empty map embed
as `[]`. -/
structure Entity where
  id : String
  type : String
  pointers : List String
  timestamp : Int
  content : List (String × String)
deriving DecidableEq

/-- Per-deployment audit record built by `deployEntityWithServerAndTimestamp`
(`ServiceImpl.ts` lines 119-123). -/
structure AuditInfo where
  deployedTimestamp : Int
  ethAddress : String
  signature : String
deriving DecidableEq

/-- A value held by the storage driver: raw content bytes, or the JSON-encoded
audit record (the JSON round-trips, so it is kept structured here). -/
inductive StoredValue where
  | bytes (b : List Nat)
  | audit (a : AuditInfo)
deriving DecidableEq

/-- The key-value store: (category, key) ↦ value, most recent write first. -/
abbrev Storage := List ((String × String) × StoredValue)

/-- `storage.store(category, key, value)`. -/
def storePut (st : Storage) (k : String × String) (v : StoredValue) : Storage :=
  (k, v) :: st

/-- Read a key: the most recent write wins. -/
def getOpt (st : Storage) (k : String × String) : Option StoredValue :=
  (st.find? (fun p => p.1 = k)).map (fun p => p.2)

/-- `storage.exists(category, key)`. -/
def existsKey (st : Storage) (k : String × String) : Bool :=
  (getOpt st k).isSome

/-- One event of the deployment history ledger (`HistoryEvent`, §3 of the spec). -/
structure HistoryEvent where
  serverName : String
  entityId : String
  entityType : String
  timestamp : Int
deriving DecidableEq

/-- Pointer state: (entity type, pointer) ↦ the active entity.  The spec's
pointer map stores the active entity id; the entity record is kept whole here
because the commit algorithm reads the incumbent's timestamp and id. -/
abbrev PointerMap := List ((String × String) × Entity)

/-- Result of `PointerManager.tryToCommitPointers` (`CommitResult`). -/
structure CommitResult where
  couldCommit : Bool
  entitiesDeleted : List String
deriving DecidableEq

/-- The active entity currently at (type, pointer), if any. -/
def getActiveEntity (ps : PointerMap) (ty p : String) : Option Entity :=
  (ps.find? (fun q => q.1 = (ty, p))).map (fun q => q.2)

/-- Distinct-by-id filter used to build the incumbent set. -/
def dedupById : List Entity → List Entity
  | [] => []
  | x :: xs => x :: (dedupById xs).filter (fun y => y.id != x.id)

/-- The set of distinct incumbents: the entities currently active on the new
entity's pointers. -/
def incumbents (ps : PointerMap) (e : Entity) : List Entity :=
  dedupById (e.pointers.filterMap (fun p => getActiveEntity ps e.type p))

/-- `(a.1, a.2) ≥ (b.1, b.2)` in the lexicographic (timestamp, entityId) order. -/
def lexGeqB (a b : Int × String) : Bool :=
  decide (b.1 < a.1) || (decide (a.1 = b.1) && (decide (b.2 < a.2) || decide (a.2 = b.2)))

/-- Modelled from the spec: `PointerManager.tryToCommit` (§4.2; the
`PointerManager` source is not among the staged files).  If some incumbent is
lexicographically ≥ the new entity on (timestamp, id), the entity is shadowed:
`couldCommit = false` and no pointer is moved.  Otherwise every pointer of the
entity is set to it, and each incumbent none of whose other pointers still
points to it is reported in `entitiesDeleted`. -/
def tryToCommitPointers (ps : PointerMap) (e : Entity) : CommitResult × PointerMap :=
  let inc := incumbents ps e
  if inc.any (fun c => lexGeqB (c.timestamp, c.id) (e.timestamp, e.id)) then
    (⟨false, []⟩, ps)
  else
    let newPs := e.pointers.foldl (fun m p => ((e.type, p), e) :: m) ps
    let orphaned := inc.filter (fun c =>
      !(c.pointers.any (fun q => !(e.pointers.contains q) &&
          (match getActiveEntity ps e.type q with
           | some cur => cur.id == c.id
           | none => false))))
    (⟨true, orphaned.map (fun c => c.id)⟩, newPs)

/-- Modelled from the spec: `HistoryManager.newEntityDeployment` (§4.3; the
`HistoryManager` source is not among the staged files).  Append is idempotent
on `entityId`; the ledger's (timestamp, entityId) ordering is a property of
its read API, so the raw list keeps insertion order. -/
def newEntityDeployment (history : List HistoryEvent) (serverName : String)
    (e : Entity) (ts : Int) : List HistoryEvent :=
  if history.any (fun ev => ev.entityId == e.id) then history
  else ⟨serverName, e.id, e.type, ts⟩ :: history

/-- The mutable state the deploy orchestrator touches. -/
structure ServiceState where
  storage : Storage
  pointers : PointerMap
  history : List HistoryEvent
  entityCache : List (String × Entity)
deriving DecidableEq

/-- One observable state mutation of a deployment, in the order performed. -/
inductive Mutation where
  | pointerCommit (entityId : String)
  | cacheDelete (entityId : String)
  | storeContent (category key : String)
  | historyAppend (serverName entityId : String) (ts : Int)
deriving DecidableEq

/-- The external collaborators of the orchestrator: the hasher, the entity
factory, and (modelled from the spec, §4.1: the `Validation` class of
`ServiceImpl`'s era is not among the staged files) the validation predicate
set, abstracted as the list of errors it collects for an entity given the
`checkFreshness` flag. -/
structure DeployEnv where
  calcHash : File → String
  parseEntity : File → String → Except String Entity
  validationErrors : Entity → Bool → List String

/-- `ENTITY_FILE_NAME` of `Service.ts`. -/
def ENTITY_FILE_NAME : String := "entity.json"

/-- `ServiceImpl.findEntityFile` (lines 154-163): the unique file named
`entity.json`, or an error when there are zero or several. -/
def findEntityFile (files : List File) : Except String File :=
  let filesWithName := files.filter (fun f => f.name = ENTITY_FILE_NAME)
  if filesWithName.length = 0 then
    .error "Failed to find the entity file. Please make sure that it is named \x27entity.json\x27."
  else if 1 < filesWithName.length then
    .error "Found more than one file called \x27entity.json\x27. Please make sure you upload only one with that name."
  else
    .ok (filesWithName.headD ⟨"", []⟩)

/-- `Hashing.calculateHashes(files)`: the map file hash ↦ file. -/
def calculateHashes (calcHash : File → String) (files : List File) : List (String × File) :=
  files.map (fun f => (calcHash f, f))

/-- `ServiceImpl.isContentAvailable` (lines 176-182): which of the given
hashes already exist in the `contents` category of storage. -/
def isContentAvailable (st : Storage) (hashes : List String) : List (String × Bool) :=
  hashes.map (fun h => (h, existsKey st ("contents", h)))

/-- A JS `map.get(h)` that is read in boolean position: a missing key is falsy. -/
def lookupB (l : List (String × Bool)) (h : String) : Bool :=
  ((l.find? (fun p => p.1 = h)).map (fun p => p.2)).getD false

/-- `map.get(h)` on the hash ↦ file map. -/
def lookupFile (l : List (String × File)) (h : String) : Option File :=
  (l.find? (fun p => p.1 = h)).map (fun p => p.2)

/-- Store each file of `l` under `contents/<hash>` (the `Promise.all` of
stores in `storeEntityContent`; the lookup result does not depend on the
order of the concurrent writes since the hashes are the map's keys). -/
def storeList (st : Storage) (l : List (String × File)) : Storage :=
  l.foldl (fun s p => storePut s ("contents", p.1) (StoredValue.bytes p.2.content)) st

/-- `ServiceImpl.storeEntityContent` (lines 135-152).  If the entity was
committed, store every uploaded file whose hash is not already stored;
otherwise store only the entity file itself, and only if its hash is not
already stored.  Also returns the storage mutations performed. -/
def storeEntityContent (st : Storage) (hashes : List (String × File))
    (alreadyStoredHashes : List (String × Bool)) (entityId : String)
    (couldCommit : Bool) : Storage × List Mutation :=
  if couldCommit then
    let toStore := hashes.filter (fun p => !(lookupB alreadyStoredHashes p.1))
    (storeList st toStore, toStore.map (fun p => Mutation.storeContent "contents" p.1))
  else
    if !(lookupB alreadyStoredHashes entityId) then
      let entityFile := (lookupFile hashes entityId).getD ⟨"", []⟩
      (storePut st ("contents", entityId) (StoredValue.bytes entityFile.content),
       [Mutation.storeContent "contents" entityId])
    else
      (st, [])

/-- `ServiceImpl.deployEntityWithServerAndTimestamp` (lines 65-133).  The
returned triple is (the thrown error or the returned deployment timestamp,
the service state afterwards, the state mutations in the order performed).
`timestampCalculator` is the value the TS thunk returns (`Date.now()` on the
local path, the peer-provided timestamp on the sync path). -/
def deployEntityWithServerAndTimestamp (env : DeployEnv) (ignoreValidationErrors : Bool)
    (st : ServiceState) (files : List File) (entityId ethAddress signature serverName : String)
    (timestampCalculator : Int) (checkFreshness : Bool) :
    Except String Int × ServiceState × List Mutation :=
  match findEntityFile files with
  | .error e => (.error e, st, [])
  | .ok entityFile =>
    if entityId ≠ env.calcHash entityFile then
      (.error "Entity file\x27s hash didn\x27t match the signed entity id.", st, [])
    else
      match env.parseEntity entityFile entityId with
      | .error e => (.error e, st, [])
      | .ok entity =>
        if ignoreValidationErrors = false ∧ env.validationErrors entity checkFreshness ≠ [] then
          (.error (String.intercalate "\n" (env.validationErrors entity checkFreshness)), st, [])
        else
          let hashes := calculateHashes env.calcHash files
          let alreadyStored := isContentAvailable st.storage (hashes.map Prod.fst)
          let commitPair := tryToCommitPointers st.pointers entity
          let newCache := commitPair.1.entitiesDeleted.foldl
            (fun c eid => c.filter (fun p => p.1 != eid)) st.entityCache
          let storePair := storeEntityContent st.storage hashes alreadyStored entityId
            commitPair.1.couldCommit
          let storage2 := storePut storePair.1 ("proofs", entity.id)
            (StoredValue.audit ⟨timestampCalculator, ethAddress, signature⟩)
          let newHistory := newEntityDeployment st.history serverName entity timestampCalculator
          (.ok timestampCalculator,
           ⟨storage2, commitPair.2, newHistory, newCache⟩,
           Mutation.pointerCommit entity.id ::
             (commitPair.1.entitiesDeleted.map Mutation.cacheDelete ++
              (storePair.2 ++
               [Mutation.storeContent "proofs" entity.id,
                Mutation.historyAppend serverName entity.id timestampCalculator])))

/-- `ServiceImpl.deployEntity` (lines 56-58): the local deploy path, with the
server's own name, `Date.now` as the timestamp source and `checkFreshness = true`. -/
def ServiceImpl.deployEntity (env : DeployEnv) (ignoreValidationErrors : Bool)
    (st : ServiceState) (files : List File) (entityId ethAddress signature : String)
    (serverName : String) (now : Int) :
    Except String Int × ServiceState × List Mutation :=
  deployEntityWithServerAndTimestamp env ignoreValidationErrors st files entityId
    ethAddress signature serverName now true

/-- `ServiceImpl.deployEntityFromAnotherContentServer` (lines 60-62): the sync
path, with the originating server's name, the peer-provided timestamp verbatim
and `checkFreshness = false` (TS discards the returned timestamp). -/
def ServiceImpl.deployEntityFromAnotherContentServer (env : DeployEnv)
    (ignoreValidationErrors : Bool) (st : ServiceState) (files : List File)
    (entityId ethAddress signature serverName : String) (deploymentTimestamp : Int) :
    Except String Int × ServiceState × List Mutation :=
  deployEntityWithServerAndTimestamp env ignoreValidationErrors st files entityId
    ethAddress signature serverName deploymentTimestamp false

/-- The record answered by the status query.  `lastImmutableTime` is an
`Option` because a TS object may simply lack the property. -/
structure ServerStatus where
  name : String
  version : String
  currentTime : Int
  lastImmutableTime : Option Int
deriving DecidableEq

/-- `ServiceImpl.getStatus` (lines 189-195): the object literal has only
`name`, `version` and `currentTime`; no `lastImmutableTime` property. -/
def ServiceImpl.getStatus (serverName : String) (now : Int) : ServerStatus :=
  ⟨serverName, "1.0", now, none⟩

/-- Modelled from the spec: the `RECENT` validation (§4.1; the `Validations`
source is not among the staged files, only its unit tests are).  Fails when
the entity's timestamp is more than `requestTtlBackwards` in the past, or
more than `requestTtlForwards` in the future, relative to `now`. -/
def Validations.RECENT (requestTtlBackwards requestTtlForwards now timestamp : Int) :
    Option (List String) :=
  if requestTtlBackwards < now - timestamp then
    some ["The request is not recent enough, please submit it again with a new timestamp."]
  else if requestTtlForwards < timestamp - now then
    some ["The request is too far in the future, please submit it again with a new timestamp."]
  else
    none

/-- The error reported when a referenced hash was neither uploaded nor stored. -/
def notAvailableHashMessage (hash : String) : String :=
  "This hash is referenced in the entity but was not uploaded or previously available: " ++ hash

/-- The error reported for an uploaded hash the entity does not reference. -/
def notReferencedHashMessage (hash : String) : String :=
  "This hash was uploaded but is not referenced in the entity: " ++ hash

/-- The errors for referenced hashes that were neither uploaded nor stored. -/
def contentMissingErrors (entityContent : List (String × String))
    (uploadedHashes : List String) (alreadyStored : String → Bool) : List String :=
  (entityContent.filter
      (fun p => !(uploadedHashes.contains p.2) && !(alreadyStored p.2))).map
    (fun p => notAvailableHashMessage p.2)

/-- The errors for uploaded hashes the entity does not reference; the entity
id (the entity file's own hash) is exempt. -/
def contentOrphanErrors (entityId : String) (entityContent : List (String × String))
    (uploadedHashes : List String) : List String :=
  (uploadedHashes.filter
      (fun h => !((entityContent.map Prod.snd).contains h) && h != entityId)).map
    notReferencedHashMessage

/-- Modelled from the spec: the `CONTENT` validation (§4.1; the `Validations`
source is not among the staged files, only its unit tests are).  Every hash
referenced by `entityContent` must be among `uploadedHashes` or reported by
`alreadyStored`; every uploaded hash must be referenced, the entity file's own
hash (the entity id) excepted. -/
def Validations.CONTENT (entityId : String) (entityContent : List (String × String))
    (uploadedHashes : List String) (alreadyStored : String → Bool) :
    Option (List String) :=
  let errors := contentMissingErrors entityContent uploadedHashes alreadyStored ++
    contentOrphanErrors entityId entityContent uploadedHashes
  if errors.isEmpty then none else some errors

/-- Modelled from the spec: the `REQUEST_SIZE_V3` validation (§4.1; the
`Validations` source is not among the staged files, only its unit tests are).
The sum of the uploaded file sizes (bytes) divided by the number of pointers
must not exceed the configured per-type cap in megabytes. -/
def Validations.REQUEST_SIZE_V3 (uploadedFileSizes : List Nat) (pointers : List String)
    (maxSizeInMB : Rat) : Option (List String) :=
  let totalSize : Nat := uploadedFileSizes.sum
  let sizePerPointer : Rat := (totalSize : Rat) / (pointers.length : Rat)
  if maxSizeInMB * 1024 * 1024 < sizePerPointer then
    some ["The deployment is too big. The maximum allowed size per pointer is "
          ++ toString maxSizeInMB ++ " MB."]
  else
    none

/-- An Active peer client of the cluster, as the redirect client uses it:
a name, a watermark, and the remote calls it answers (`ContentServerClient`;
modelled from the spec since the base class is not among the staged files).
Each remote call is a promise-returning method, so its result has two error
layers: the outer `Except` is the synchronous outcome of invoking the method
(an `.error` is a synchronous throw), the inner `Except` is the returned
promise's eventual outcome (an `.error` is an asynchronous rejection, e.g. a
failed HTTP request). -/
structure ContentServerClient where
  name : String
  lastKnownTimestamp : Int
  historyCall : Int → Option String → Option Int →
    Except String (Except String (List HistoryEvent))
  auditCall : String → String → Except String (Except String AuditInfo)
  entityCall : String → String → Except String (Except String Entity)
  contentFileCall : String → Except String (Except String File)
  statusResult : ServerStatus

/-- `RedirectContentServerClient` (lines 17-67): shadows an unreachable peer;
`cluster` is `cluster.getAllActiveServersInCluster()`, the currently-Active
peers the redirect fans out to. -/
structure RedirectContentServerClient where
  cluster : List ContentServerClient
  name : String
  lastKnownTimestamp : Int

/-- `redirectCall` (lines 60-67): `try { return call(server) } catch {}` has
NO `await`, so the catch swallows only a synchronous throw of `call(server)`
and then tries the next server; a promise the call returns is handed to the
caller as is, so the caller observes its eventual outcome — fulfilment or
rejection — and no further server is tried.  The final "Failed to
distribute…" error surfaces only when every server's invocation throws
synchronously (in particular when there is no active server). -/
def redirectCall {T : Type} : List ContentServerClient →
    (ContentServerClient → Except String (Except String T)) → Except String T
  | [], _ => .error "Failed to distribute call among reachable servers"
  | s :: rest, call =>
    match call s with
    | .ok promiseOutcome => promiseOutcome
    | .error _ => redirectCall rest call

/-- `RedirectContentServerClient.getHistory` (lines 24-26). -/
def RedirectContentServerClient.getHistory (c : RedirectContentServerClient)
    (fromTs : Int) (serverName : Option String) (toTs : Option Int) :
    Except String (List HistoryEvent) :=
  redirectCall c.cluster (fun s => s.historyCall fromTs serverName toTs)

/-- `RedirectContentServerClient.getStatus` (lines 28-36): answered locally,
without consulting any peer. -/
def RedirectContentServerClient.getStatus (c : RedirectContentServerClient) : ServerStatus :=
  ⟨c.name, "Unknown", c.lastKnownTimestamp, some (-1)⟩

/-- `RedirectContentServerClient.getAuditInfo` (lines 38-40). -/
def RedirectContentServerClient.getAuditInfo (c : RedirectContentServerClient)
    (entityType entityId : String) : Except String AuditInfo :=
  redirectCall c.cluster (fun s => s.auditCall entityType entityId)

/-- `RedirectContentServerClient.getEntity` (lines 42-44). -/
def RedirectContentServerClient.getEntity (c : RedirectContentServerClient)
    (entityType entityId : String) : Except String Entity :=
  redirectCall c.cluster (fun s => s.entityCall entityType entityId)

/-- `RedirectContentServerClient.getContentFile` (lines 46-48). -/
def RedirectContentServerClient.getContentFile (c : RedirectContentServerClient)
    (fileHash : String) : Except String File :=
  redirectCall c.cluster (fun s => s.contentFileCall fileHash)

/-- `updateTimestamp` (lines 50-53): a no-op, the client is returned unchanged. -/
def RedirectContentServerClient.updateTimestamp (c : RedirectContentServerClient)
    (_timestamp : Option Int) : RedirectContentServerClient :=
  c

/-- `isActive` (lines 55-57). -/
def RedirectContentServerClient.isActive (_c : RedirectContentServerClient) : Bool :=
  false

/-- A blacklist target (`BlacklistTarget.ts`). -/
inductive BlacklistTarget where
  | address (a : String)
  | content (hash : String)
  | entityT (entityType entityId : String)
  | pointer (entityType pointer : String)
deriving DecidableEq

/-- `buildAddressTarget`. -/
def buildAddressTarget (a : String) : BlacklistTarget := .address a

/-- `buildContentTarget`. -/
def buildContentTarget (hash : String) : BlacklistTarget := .content hash

/-- `buildPointerTarget`. -/
def buildPointerTarget (entityType pointer : String) : BlacklistTarget :=
  .pointer entityType pointer

/-- `BlacklistServiceDecorator.areBlacklisted` (lines 158-162): look up every
target and reduce the answers with `||` — with NO initial value, so JS throws
a `TypeError` on an empty target collection. -/
def areBlacklisted (isBl : BlacklistTarget → Bool) (targets : List BlacklistTarget) :
    Except String Bool :=
  match targets.map isBl with
  | [] => .error "Reduce of empty array with no initial value"
  | b :: bs => .ok (bs.foldl (fun accum currentValue => accum || currentValue) b)

/-- `BlacklistServiceDecorator.deployEntity` (lines 101-127).  `inner` is the
delegated `service.deployEntity(...)` result. -/
def BlacklistServiceDecorator.deployEntity (isBl : BlacklistTarget → Bool)
    (parseEntity : File → String → Except String Entity) (inner : Except String Int)
    (files : List File) (entityId ethAddress : String) : Except String Int :=
  match areBlacklisted isBl [buildAddressTarget ethAddress] with
  | .error e => .error e
  | .ok addrBl =>
    if addrBl then
      .error ("Can\x27t allow a deployment from address \x27" ++ ethAddress
              ++ "\x27 since it was blacklisted.")
    else
      match findEntityFile files with
      | .error e => .error e
      | .ok entityFile =>
        match parseEntity entityFile entityId with
        | .error e => .error e
        | .ok entity =>
          match areBlacklisted isBl ((entity.content.map Prod.snd).map buildContentTarget) with
          | .error e => .error e
          | .ok contBl =>
            if contBl then
              .error "Can\x27t allow the deployment since the entity contains a blacklisted content."
            else
              match areBlacklisted isBl (entity.pointers.map (buildPointerTarget entity.type)) with
              | .error e => .error e
              | .ok ptrBl =>
                if ptrBl then
                  .error "Can\x27t allow the deployment since the entity contains a blacklisted pointer."
                else inner

/-- A concrete hasher/parser/validator bundle for concrete runs: the hash of
a file is its name, parsing yields a one-pointer scene entity, no validation
errors. -/
def sampleEnv : DeployEnv :=
  { calcHash := fun f => f.name,
    parseEntity := fun _ id => .ok ⟨id, "scene", ["p1"], 5, []⟩,
    validationErrors := fun _ _ => [] }

/-- A service state with empty storage, pointers, history and cache. -/
def emptyState : ServiceState := ⟨[], [], [], []⟩

/-- A single uploaded file named `entity.json`. -/
def sampleFiles : List File := [⟨"entity.json", [1, 2]⟩]

/-- A reachable peer whose history and audit calls yield a fulfilled promise
and whose status is known. -/
def samplePeer : ContentServerClient :=
  { name := "peer", lastKnownTimestamp := 50,
    historyCall := fun _ _ _ => .ok (.ok []),
    auditCall := fun _ _ => .ok (.ok ⟨7, "0xp", "s"⟩),
    entityCall := fun _ _ => .ok (.error "not found"),
    contentFileCall := fun _ => .ok (.error "not found"),
    statusResult := ⟨"peer", "1.0", 999, some 7⟩ }

/-- A peer every call on which throws synchronously (before returning a
promise), so the redirect loop's catch swallows it. -/
def failPeer : ContentServerClient :=
  { name := "fail", lastKnownTimestamp := 0,
    historyCall := fun _ _ _ => .error "down",
    auditCall := fun _ _ => .error "down",
    entityCall := fun _ _ => .error "down",
    contentFileCall := fun _ => .error "down",
    statusResult := ⟨"fail", "1.0", 0, none⟩ }

/-- A peer whose calls return a promise that later rejects (the normal
failure mode of a remote HTTP call): the invocation itself succeeds, so the
redirect loop's catch does not fire. -/
def rejectPeer : ContentServerClient :=
  { name := "reject", lastKnownTimestamp := 0,
    historyCall := fun _ _ _ => .ok (.error "network timeout"),
    auditCall := fun _ _ => .ok (.error "network timeout"),
    entityCall := fun _ _ => .ok (.error "network timeout"),
    contentFileCall := fun _ => .ok (.error "network timeout"),
    statusResult := ⟨"reject", "1.0", 0, none⟩ }

/-- A redirect client shadowing an unreachable server, with one active peer. -/
def sampleRedirect : RedirectContentServerClient := ⟨[samplePeer], "down", 10⟩

/-- A redirect client whose first active peer throws synchronously and whose
second answers. -/
def sampleRedirect2 : RedirectContentServerClient := ⟨[failPeer, samplePeer], "down2", 11⟩

/-- A redirect client whose first active peer's promise rejects while its
second active peer would succeed. -/
def sampleRedirect3 : RedirectContentServerClient := ⟨[rejectPeer, samplePeer], "down3", 12⟩

/-- A storage that already holds the blob `h1`. -/
def sampleStorage : Storage := [(("contents", "h1"), StoredValue.bytes [7])]

/-- Two uploaded files keyed by their hashes; `h1` is already stored. -/
def sampleHashes : List (String × File) := [("h1", ⟨"a.png", [7]⟩), ("h2", ⟨"b.png", [8]⟩)]

theorem getOpt_storePut_same (st : Storage) (k : String × String) (v : StoredValue) :
    getOpt (storePut st k v) k = some v := by
  simp [getOpt, storePut, List.find?]

theorem getOpt_storePut_other (st : Storage) (k k2 : String × String) (v : StoredValue)
    (h : k2 ≠ k) : getOpt (storePut st k v) k2 = getOpt st k2 := by
  simp [getOpt, storePut, List.find?, Ne.symm h]

theorem getOpt_storeList_of_not_mem (l : List (String × File)) (st : Storage)
    (k : String × String) (hk : k.1 ≠ "contents" ∨ k.2 ∉ l.map Prod.fst) :
    getOpt (storeList st l) k = getOpt st k := by
  induction l generalizing st with
  | nil => rfl
  | cons p rest ih =>
    have hne : k ≠ ("contents", p.1) := by
      rcases hk with h | h
      · intro he; exact h (by rw [he])
      · intro he; exact h (by rw [he]; simp)
    have hk2 : k.1 ≠ "contents" ∨ k.2 ∉ rest.map Prod.fst := by
      rcases hk with h | h
      · exact Or.inl h
      · exact Or.inr (fun hm => h (by simp [hm]))
    show getOpt (storeList (storePut st ("contents", p.1) (StoredValue.bytes p.2.content)) rest) k
      = getOpt st k
    rw [ih _ hk2, getOpt_storePut_other _ _ _ _ hne]

theorem getOpt_storeList_of_mem (l : List (String × File)) (st : Storage)
    (h2 : String) (f : File) (hnd : (l.map Prod.fst).Nodup) (hm : (h2, f) ∈ l) :
    getOpt (storeList st l) ("contents", h2) = some (StoredValue.bytes f.content) := by
  induction l generalizing st with
  | nil => cases hm
  | cons p rest ih =>
    simp only [List.map_cons, List.nodup_cons] at hnd
    rcases List.mem_cons.mp hm with he | hm2
    · have hp1 : p.1 = h2 := by rw [← he]
      have hp2 : p.2 = f := by rw [← he]
      have hnotin : h2 ∉ rest.map Prod.fst := by rw [← hp1]; exact hnd.1
      show getOpt (storeList (storePut st ("contents", p.1) (StoredValue.bytes p.2.content)) rest)
          ("contents", h2) = some (StoredValue.bytes f.content)
      rw [getOpt_storeList_of_not_mem rest _ _ (Or.inr hnotin)]
      rw [hp1, hp2]
      exact getOpt_storePut_same _ _ _
    · show getOpt (storeList (storePut st ("contents", p.1) (StoredValue.bytes p.2.content)) rest)
          ("contents", h2) = some (StoredValue.bytes f.content)
      exact ih _ hnd.2 hm2

theorem lookupB_isContentAvailable (st : Storage) (ks : List String) (h2 : String)
    (hm : h2 ∈ ks) : lookupB (isContentAvailable st ks) h2 = existsKey st ("contents", h2) := by
  induction ks with
  | nil => cases hm
  | cons k rest ih =>
    by_cases he : k = h2
    · subst he
      unfold lookupB isContentAvailable
      simp only [List.map_cons]
      rw [List.find?_cons_of_pos _ (by simp)]
      rfl
    · have hm2 : h2 ∈ rest := by
        rcases List.mem_cons.mp hm with h | h
        · exact absurd h.symm he
        · exact h
      unfold lookupB isContentAvailable at *
      simp only [List.map_cons]
      rw [List.find?_cons_of_neg _ (by simp [he])]
      exact ih hm2

theorem storeEntityContent_muts_shape (st : Storage) (hashes : List (String × File))
    (already : List (String × Bool)) (entityId : String) (cc : Bool) :
    ∃ hs : List String, (storeEntityContent st hashes already entityId cc).2 =
      hs.map (fun h2 => Mutation.storeContent "contents" h2) := by
  unfold storeEntityContent
  cases cc with
  | true =>
    refine ⟨(hashes.filter (fun p => !(lookupB already p.1))).map Prod.fst, ?_⟩
    simp [List.map_map]
  | false =>
    by_cases hb : !(lookupB already entityId)
    · exact ⟨[entityId], by simp [hb]⟩
    · exact ⟨[], by simp [hb]⟩

theorem findEntityFile_of_none (files : List File)
    (h : (files.filter (fun f => f.name = ENTITY_FILE_NAME)).length = 0) :
    findEntityFile files =
      .error "Failed to find the entity file. Please make sure that it is named \x27entity.json\x27." := by
  unfold findEntityFile
  rw [if_pos h]

theorem findEntityFile_of_many (files : List File)
    (h : 1 < (files.filter (fun f => f.name = ENTITY_FILE_NAME)).length) :
    findEntityFile files =
      .error "Found more than one file called \x27entity.json\x27. Please make sure you upload only one with that name." := by
  unfold findEntityFile
  rw [if_neg (by omega), if_pos h]

theorem findEntityFile_of_unique (files : List File) (f : File)
    (h : files.filter (fun f2 => f2.name = ENTITY_FILE_NAME) = [f]) :
    findEntityFile files = .ok f := by
  unfold findEntityFile
  rw [h]
  rfl

theorem deploy_error_frame (env : DeployEnv) (ign : Bool) (st : ServiceState)
    (files : List File) (entityId ethAddress signature serverName : String)
    (tsCalc : Int) (fresh : Bool) (e : String)
    (h : (deployEntityWithServerAndTimestamp env ign st files entityId ethAddress
        signature serverName tsCalc fresh).1 = .error e) :
    (deployEntityWithServerAndTimestamp env ign st files entityId ethAddress
        signature serverName tsCalc fresh).2.1 = st ∧
    (deployEntityWithServerAndTimestamp env ign st files entityId ethAddress
        signature serverName tsCalc fresh).2.2 = [] := by
  unfold deployEntityWithServerAndTimestamp at h ⊢
  cases hf : findEntityFile files with
  | error e2 => simp [hf]
  | ok f =>
    simp only [hf] at h ⊢
    by_cases hh : entityId ≠ env.calcHash f
    · simp [if_pos hh]
    · simp only [if_neg hh] at h ⊢
      cases hp : env.parseEntity f entityId with
      | error e2 => simp [hp]
      | ok entity =>
        simp only [hp] at h ⊢
        by_cases hv : ign = false ∧ env.validationErrors entity fresh ≠ []
        · simp [if_pos hv]
        · simp only [if_neg hv] at h ⊢
          simp at h

theorem deploy_ok_trace (env : DeployEnv) (ign : Bool) (st : ServiceState)
    (files : List File) (entityId ethAddress signature serverName : String)
    (tsCalc : Int) (fresh : Bool) (ts : Int)
    (h : (deployEntityWithServerAndTimestamp env ign st files entityId ethAddress
        signature serverName tsCalc fresh).1 = .ok ts) :
    ∃ (eid : String) (dels stores : List String),
      (deployEntityWithServerAndTimestamp env ign st files entityId ethAddress
          signature serverName tsCalc fresh).2.2 =
        Mutation.pointerCommit eid ::
          (dels.map Mutation.cacheDelete ++
           (stores.map (fun h2 => Mutation.storeContent "contents" h2) ++
            [Mutation.storeContent "proofs" eid,
             Mutation.historyAppend serverName eid ts])) := by
  unfold deployEntityWithServerAndTimestamp at h ⊢
  cases hf : findEntityFile files with
  | error e2 => simp [hf] at h
  | ok f =>
    simp only [hf] at h ⊢
    by_cases hh : entityId ≠ env.calcHash f
    · simp [if_pos hh] at h
    · simp only [if_neg hh] at h ⊢
      cases hp : env.parseEntity f entityId with
      | error e2 => simp [hp] at h
      | ok entity =>
        simp only [hp] at h ⊢
        by_cases hv : ign = false ∧ env.validationErrors entity fresh ≠ []
        · simp [if_pos hv] at h
        · simp only [if_neg hv] at h ⊢
          simp only [Except.ok.injEq] at h
          subst h
          obtain ⟨hs, hhs⟩ := storeEntityContent_muts_shape st.storage
            (calculateHashes env.calcHash files)
            (isContentAvailable st.storage ((calculateHashes env.calcHash files).map Prod.fst))
            entityId (tryToCommitPointers st.pointers entity).1.couldCommit
          refine ⟨entity.id, (tryToCommitPointers st.pointers entity).1.entitiesDeleted, hs, ?_⟩
          simp [hhs]

/-- C1, corrected.  Any error raised by the entity-file lookup, the hash
check, the parse, or the collected validation errors (the freshness check
included) aborts the deployment before any state mutation; and a successful
deployment performs its mutations in the order: Pointer commit first, then
the in-memory cache evictions, then the Storage writes (content blobs, then
the audit proof), then the History append last — the Pointer commit, not the
Storage writes, comes first. -/
theorem deploy_abort_and_mutation_order (env : DeployEnv) (ign : Bool) (st : ServiceState)
    (files : List File) (entityId ethAddress signature serverName : String)
    (tsCalc : Int) (fresh : Bool) :
    (∀ e, (deployEntityWithServerAndTimestamp env ign st files entityId ethAddress
        signature serverName tsCalc fresh).1 = .error e →
      (deployEntityWithServerAndTimestamp env ign st files entityId ethAddress
        signature serverName tsCalc fresh).2.1 = st ∧
      (deployEntityWithServerAndTimestamp env ign st files entityId ethAddress
        signature serverName tsCalc fresh).2.2 = []) ∧
    (∀ ts, (deployEntityWithServerAndTimestamp env ign st files entityId ethAddress
        signature serverName tsCalc fresh).1 = .ok ts →
      ∃ (eid : String) (dels stores : List String),
        (deployEntityWithServerAndTimestamp env ign st files entityId ethAddress
            signature serverName tsCalc fresh).2.2 =
          Mutation.pointerCommit eid ::
            (dels.map Mutation.cacheDelete ++
             (stores.map (fun h2 => Mutation.storeContent "contents" h2) ++
              [Mutation.storeContent "proofs" eid,
               Mutation.historyAppend serverName eid ts]))) :=
  ⟨fun _ h => deploy_error_frame env ign st files entityId ethAddress signature
      serverName tsCalc fresh _ h,
   fun _ h => deploy_ok_trace env ign st files entityId ethAddress signature
      serverName tsCalc fresh _ h⟩

/-- C1, counterexample to the claimed order "Storage first, then Pointer
commit, then History": on a concrete successful deployment the very first
mutation is the Pointer commit and the Storage writes come after it. -/
theorem deploy_storage_after_pointer_commit :
    (deployEntityWithServerAndTimestamp sampleEnv false emptyState sampleFiles
        "entity.json" "0xabc" "sig" "srv" 42 true).1 = .ok 42 ∧
    (deployEntityWithServerAndTimestamp sampleEnv false emptyState sampleFiles
        "entity.json" "0xabc" "sig" "srv" 42 true).2.2 =
      [Mutation.pointerCommit "entity.json",
       Mutation.storeContent "contents" "entity.json",
       Mutation.storeContent "proofs" "entity.json",
       Mutation.historyAppend "srv" "entity.json" 42] := by
  constructor
  · rfl
  · rfl

/-- C1 witness: the amended order theorem applied to the concrete successful
run of `deploy_storage_after_pointer_commit`'s input. -/
theorem deploy_abort_and_mutation_order_witness :
    ∃ (eid : String) (dels stores : List String),
      (deployEntityWithServerAndTimestamp sampleEnv false emptyState sampleFiles
          "entity.json" "0xabc" "sig" "srv" 42 true).2.2 =
        Mutation.pointerCommit eid ::
          (dels.map Mutation.cacheDelete ++
           (stores.map (fun h2 => Mutation.storeContent "contents" h2) ++
            [Mutation.storeContent "proofs" eid,
             Mutation.historyAppend "srv" eid 42])) :=
  (deploy_abort_and_mutation_order sampleEnv false emptyState sampleFiles
    "entity.json" "0xabc" "sig" "srv" 42 true).2 42 rfl

/-- C3.  A successful deployment returns exactly the value of its timestamp
calculator — `Date.now()` on the local path (`deployEntity` passes it), the
peer-provided timestamp verbatim on the sync path
(`deployEntityFromAnotherContentServer` passes a constant thunk) — and that
same value is recorded in the stored AuditInfo (`deployedTimestamp`) and in
the history event appended for the deployment. -/
theorem deploy_timestamp_spec (env : DeployEnv) (ign : Bool) (st : ServiceState)
    (files : List File) (entityId ethAddress signature serverName : String)
    (tsCalc : Int) (fresh : Bool) (ts : Int)
    (h : (deployEntityWithServerAndTimestamp env ign st files entityId ethAddress
        signature serverName tsCalc fresh).1 = .ok ts) :
    ts = tsCalc ∧
    ServiceImpl.deployEntity env ign st files entityId ethAddress signature serverName tsCalc =
      deployEntityWithServerAndTimestamp env ign st files entityId ethAddress signature
        serverName tsCalc true ∧
    ServiceImpl.deployEntityFromAnotherContentServer env ign st files entityId ethAddress
        signature serverName tsCalc =
      deployEntityWithServerAndTimestamp env ign st files entityId ethAddress signature
        serverName tsCalc false ∧
    ∃ f entity,
      findEntityFile files = .ok f ∧
      env.parseEntity f entityId = .ok entity ∧
      getOpt (deployEntityWithServerAndTimestamp env ign st files entityId ethAddress
          signature serverName tsCalc fresh).2.1.storage ("proofs", entity.id) =
        some (StoredValue.audit ⟨ts, ethAddress, signature⟩) ∧
      (st.history.any (fun ev => ev.entityId == entity.id) = false →
        (⟨serverName, entity.id, entity.type, ts⟩ : HistoryEvent) ∈
          (deployEntityWithServerAndTimestamp env ign st files entityId ethAddress
            signature serverName tsCalc fresh).2.1.history) := by
  refine ⟨?_, rfl, rfl, ?_⟩
  · unfold deployEntityWithServerAndTimestamp at h
    cases hf : findEntityFile files with
    | error e2 => simp [hf] at h
    | ok f =>
      simp only [hf] at h
      by_cases hh : entityId ≠ env.calcHash f
      · simp [if_pos hh] at h
      · simp only [if_neg hh] at h
        cases hp : env.parseEntity f entityId with
        | error e2 => simp [hp] at h
        | ok entity =>
          simp only [hp] at h
          by_cases hv : ign = false ∧ env.validationErrors entity fresh ≠ []
          · simp [if_pos hv] at h
          · simp only [if_neg hv] at h
            simp only [Except.ok.injEq] at h
            exact h.symm
  · unfold deployEntityWithServerAndTimestamp at h ⊢
    cases hf : findEntityFile files with
    | error e2 => simp [hf] at h
    | ok f =>
      simp only [hf] at h ⊢
      by_cases hh : entityId ≠ env.calcHash f
      · simp [if_pos hh] at h
      · simp only [if_neg hh] at h ⊢
        cases hp : env.parseEntity f entityId with
        | error e2 => simp [hp] at h
        | ok entity =>
          simp only [hp] at h ⊢
          by_cases hv : ign = false ∧ env.validationErrors entity fresh ≠ []
          · simp [if_pos hv] at h
          · simp only [if_neg hv] at h ⊢
            simp only [Except.ok.injEq] at h
            subst h
            exact ⟨f, entity, rfl, hp, getOpt_storePut_same _ _ _,
              fun hdup => by
                show _ ∈ newEntityDeployment st.history serverName entity tsCalc
                unfold newEntityDeployment
                rw [if_neg (by simp [hdup])]
                exact List.mem_cons_self _ _⟩

/-- C3 witness: a concrete successful local deployment with timestamp
calculator value 42 records 42 in the stored audit proof and in the appended
history event. -/
theorem deploy_timestamp_spec_witness :
    ∃ f entity,
      findEntityFile sampleFiles = .ok f ∧
      sampleEnv.parseEntity f "entity.json" = .ok entity ∧
      getOpt (deployEntityWithServerAndTimestamp sampleEnv false emptyState sampleFiles
          "entity.json" "0xabc" "sig" "srv" 42 true).2.1.storage ("proofs", entity.id) =
        some (StoredValue.audit ⟨42, "0xabc", "sig"⟩) ∧
      (emptyState.history.any (fun ev => ev.entityId == entity.id) = false →
        (⟨"srv", entity.id, entity.type, 42⟩ : HistoryEvent) ∈
          (deployEntityWithServerAndTimestamp sampleEnv false emptyState sampleFiles
            "entity.json" "0xabc" "sig" "srv" 42 true).2.1.history) :=
  (deploy_timestamp_spec sampleEnv false emptyState sampleFiles "entity.json" "0xabc" "sig"
    "srv" 42 true 42 rfl).2.2.2

/-- C4.  A deployment fails, without mutating any state, when the uploaded
files contain zero files named `entity.json`, or more than one, or when the
unique entity file's hash differs from the supplied entity id; with exactly
one `entity.json` whose hash equals the entity id (and a parseable entity
with no validation errors) the deployment proceeds past the guards and
succeeds. -/
theorem deploy_entity_file_guards (env : DeployEnv) (ign : Bool) (st : ServiceState)
    (files : List File) (entityId ethAddress signature serverName : String)
    (tsCalc : Int) (fresh : Bool) :
    ((files.filter (fun f => f.name = ENTITY_FILE_NAME)).length = 0 →
      deployEntityWithServerAndTimestamp env ign st files entityId ethAddress signature
          serverName tsCalc fresh =
        (.error "Failed to find the entity file. Please make sure that it is named \x27entity.json\x27.",
         st, [])) ∧
    (1 < (files.filter (fun f => f.name = ENTITY_FILE_NAME)).length →
      deployEntityWithServerAndTimestamp env ign st files entityId ethAddress signature
          serverName tsCalc fresh =
        (.error "Found more than one file called \x27entity.json\x27. Please make sure you upload only one with that name.",
         st, [])) ∧
    (∀ f, files.filter (fun f2 => f2.name = ENTITY_FILE_NAME) = [f] →
      entityId ≠ env.calcHash f →
      deployEntityWithServerAndTimestamp env ign st files entityId ethAddress signature
          serverName tsCalc fresh =
        (.error "Entity file\x27s hash didn\x27t match the signed entity id.", st, [])) ∧
    (∀ f entity, files.filter (fun f2 => f2.name = ENTITY_FILE_NAME) = [f] →
      entityId = env.calcHash f →
      env.parseEntity f entityId = .ok entity →
      (ign = true ∨ env.validationErrors entity fresh = []) →
      (deployEntityWithServerAndTimestamp env ign st files entityId ethAddress signature
          serverName tsCalc fresh).1 = .ok tsCalc) := by
  refine ⟨?_, ?_, ?_, ?_⟩
  · intro h0
    unfold deployEntityWithServerAndTimestamp
    rw [findEntityFile_of_none files h0]
  · intro h1
    unfold deployEntityWithServerAndTimestamp
    rw [findEntityFile_of_many files h1]
  · intro f hf hne
    unfold deployEntityWithServerAndTimestamp
    rw [findEntityFile_of_unique files f hf]
    simp [if_pos hne]
  · intro f entity hf heq hp hv
    have hnn : ¬ entityId ≠ env.calcHash f := fun hn => hn heq
    have hvv : ¬ (ign = false ∧ env.validationErrors entity fresh ≠ []) := by
      rcases hv with h | h <;> simp [h]
    unfold deployEntityWithServerAndTimestamp
    simp only [findEntityFile_of_unique files f hf, if_neg hnn, hp, if_neg hvv]

/-- C4 witness: the success guard applied to one concrete upload with exactly
one `entity.json` whose hash matches the entity id. -/
theorem deploy_entity_file_guards_witness :
    (deployEntityWithServerAndTimestamp sampleEnv false emptyState sampleFiles
        "entity.json" "0xabc" "sig" "srv" 42 true).1 = .ok 42 :=
  (deploy_entity_file_guards sampleEnv false emptyState sampleFiles "entity.json" "0xabc"
    "sig" "srv" 42 true).2.2.2 ⟨"entity.json", [1, 2]⟩ ⟨"entity.json", "scene", ["p1"], 5, []⟩
    rfl rfl rfl (Or.inr rfl)

/-- C2.  With `already` the answer of `isContentAvailable` for the uploaded
hashes: on `couldCommit = false` the pointer map is untouched
(`tryToCommitPointers` returns it unchanged) and the service stores only the
entity file itself, and only when its hash is not already stored; on
`couldCommit = true` it stores exactly the uploaded files whose hash is not
already present in storage (stored hashes and untouched keys keep their old
value, and the performed mutations are exactly the filtered stores). -/
theorem storeEntityContent_spec (st : Storage) (hashes : List (String × File))
    (already : List (String × Bool)) (entityId : String)
    (halready : already = isContentAvailable st (hashes.map Prod.fst)) :
    (lookupB already entityId = true →
      storeEntityContent st hashes already entityId false = (st, [])) ∧
    (∀ f, lookupB already entityId = false → lookupFile hashes entityId = some f →
      storeEntityContent st hashes already entityId false =
        (storePut st ("contents", entityId) (StoredValue.bytes f.content),
         [Mutation.storeContent "contents" entityId])) ∧
    (∀ ps e, (tryToCommitPointers ps e).1.couldCommit = false →
      (tryToCommitPointers ps e).2 = ps) ∧
    (∀ h2, h2 ∈ hashes.map Prod.fst →
      lookupB already h2 = existsKey st ("contents", h2)) ∧
    (∀ h2 f, (hashes.map Prod.fst).Nodup → (h2, f) ∈ hashes → lookupB already h2 = false →
      getOpt (storeEntityContent st hashes already entityId true).1 ("contents", h2) =
        some (StoredValue.bytes f.content)) ∧
    (∀ cat key,
      (cat ≠ "contents" ∨ lookupB already key = true ∨ key ∉ hashes.map Prod.fst) →
      getOpt (storeEntityContent st hashes already entityId true).1 (cat, key) =
        getOpt st (cat, key)) ∧
    ((storeEntityContent st hashes already entityId true).2 =
      (hashes.filter (fun p => !(lookupB already p.1))).map
        (fun p => Mutation.storeContent "contents" p.1)) := by
  refine ⟨?_, ?_, ?_, ?_, ?_, ?_, ?_⟩
  · intro hb
    unfold storeEntityContent
    simp [hb]
  · intro f hb hfind
    unfold storeEntityContent
    rw [hb]
    simp [hfind]
  · intro ps e hcc
    unfold tryToCommitPointers at hcc ⊢
    by_cases hsh : (incumbents ps e).any
        (fun c => lexGeqB (c.timestamp, c.id) (e.timestamp, e.id))
    · simp [hsh]
    · simp [hsh] at hcc
  · intro h2 hm
    subst halready
    exact lookupB_isContentAvailable st _ h2 hm
  · intro h2 f hnd hm hb
    unfold storeEntityContent
    simp only [if_pos rfl]
    refine getOpt_storeList_of_mem _ _ _ _ ?_ ?_
    · exact hnd.sublist ((List.filter_sublist hashes).map Prod.fst)
    · exact List.mem_filter.mpr ⟨hm, by simp [hb]⟩
  · intro cat key hk
    unfold storeEntityContent
    simp only [if_pos rfl]
    refine getOpt_storeList_of_not_mem _ _ _ ?_
    rcases hk with h | h | h
    · exact Or.inl h
    · refine Or.inr ?_
      intro hmem
      rcases List.mem_map.mp hmem with ⟨p, hp1, hp2⟩
      rcases List.mem_filter.mp hp1 with ⟨_, hcond⟩
      rw [hp2] at hcond
      simp [h] at hcond
    · refine Or.inr ?_
      intro hmem
      apply h
      rcases List.mem_map.mp hmem with ⟨p, hp1, hp2⟩
      have hp3 : p.1 = key := hp2
      rw [← hp3]
      exact List.mem_map_of_mem Prod.fst (List.mem_of_mem_filter hp1)
  · unfold storeEntityContent
    simp

/-- C2 witness: with `h1` already stored and `h2` fresh, a committed
deployment's content stores are exactly the store of `h2`. -/
theorem storeEntityContent_spec_witness :
    (storeEntityContent sampleStorage sampleHashes
        (isContentAvailable sampleStorage (sampleHashes.map Prod.fst)) "h2" true).2 =
      (sampleHashes.filter
          (fun p => !(lookupB (isContentAvailable sampleStorage (sampleHashes.map Prod.fst)) p.1))).map
        (fun p => Mutation.storeContent "contents" p.1) :=
  (storeEntityContent_spec sampleStorage sampleHashes
    (isContentAvailable sampleStorage (sampleHashes.map Prod.fst)) "h2" rfl).2.2.2.2.2.2

/-- C5.  The RECENT validation rejects a timestamp more than
`requestTtlBackwards` in the past with "The request is not recent enough…",
rejects one more than `requestTtlForwards` in the future with "…too far in
the future…", accepts a current one, and in particular (with the default
10-minute backwards TTL) rejects `timestamp = now − 25 minutes`. -/
theorem recent_validation_spec (requestTtlBackwards requestTtlForwards now timestamp : Int) :
    (requestTtlBackwards < now - timestamp →
      Validations.RECENT requestTtlBackwards requestTtlForwards now timestamp =
        some ["The request is not recent enough, please submit it again with a new timestamp."]) ∧
    (now - timestamp ≤ requestTtlBackwards → requestTtlForwards < timestamp - now →
      Validations.RECENT requestTtlBackwards requestTtlForwards now timestamp =
        some ["The request is too far in the future, please submit it again with a new timestamp."]) ∧
    (now - timestamp ≤ requestTtlBackwards → timestamp - now ≤ requestTtlForwards →
      Validations.RECENT requestTtlBackwards requestTtlForwards now timestamp = none) ∧
    (Validations.RECENT 600000 300000 now (now - 1500000) =
      some ["The request is not recent enough, please submit it again with a new timestamp."]) := by
  refine ⟨?_, ?_, ?_, ?_⟩
  · intro h
    unfold Validations.RECENT
    rw [if_pos h]
  · intro h1 h2
    unfold Validations.RECENT
    rw [if_neg (by omega), if_pos h2]
  · intro h1 h2
    unfold Validations.RECENT
    rw [if_neg (by omega), if_neg (by omega)]
  · unfold Validations.RECENT
    rw [if_pos (by omega)]

/-- C5 witness: with the default TTLs (10 min back, 5 min forward) and
`now = 2000000` ms, a 25-minute-old timestamp is rejected as not recent, a
20-minute-future one as too far in the future, and `now` itself passes. -/
theorem recent_validation_spec_witness :
    Validations.RECENT 600000 300000 2000000 500000 =
      some ["The request is not recent enough, please submit it again with a new timestamp."] ∧
    Validations.RECENT 600000 300000 2000000 3200000 =
      some ["The request is too far in the future, please submit it again with a new timestamp."] ∧
    Validations.RECENT 600000 300000 2000000 2000000 = none :=
  ⟨(recent_validation_spec 600000 300000 2000000 500000).1 (by decide),
   (recent_validation_spec 600000 300000 2000000 3200000).2.1 (by decide) (by decide),
   (recent_validation_spec 600000 300000 2000000 2000000).2.2.1 (by decide) (by decide)⟩

/-- C6.  The CONTENT validation reports "This hash is referenced in the
entity but was not uploaded or previously available: h" for every hash `h`
of the entity's content map that is neither uploaded nor already stored,
reports "This hash was uploaded but is not referenced in the entity: h" for
every uploaded hash the entity does not reference (the entity's own id — the
entity-file hash — excepted), and yields no error when every reference is
uploaded or stored and every upload is referenced. -/
theorem content_validation_spec (entityId : String) (entityContent : List (String × String))
    (uploadedHashes : List String) (alreadyStored : String → Bool) :
    (∀ n h2, (n, h2) ∈ entityContent → uploadedHashes.contains h2 = false →
      alreadyStored h2 = false →
      ∃ errs, Validations.CONTENT entityId entityContent uploadedHashes alreadyStored =
          some errs ∧ notAvailableHashMessage h2 ∈ errs) ∧
    (∀ h2, h2 ∈ uploadedHashes → (entityContent.map Prod.snd).contains h2 = false →
      h2 ≠ entityId →
      ∃ errs, Validations.CONTENT entityId entityContent uploadedHashes alreadyStored =
          some errs ∧ notReferencedHashMessage h2 ∈ errs) ∧
    ((∀ p ∈ entityContent, uploadedHashes.contains p.2 = true ∨ alreadyStored p.2 = true) →
     (∀ h2 ∈ uploadedHashes, (entityContent.map Prod.snd).contains h2 = true ∨ h2 = entityId) →
     Validations.CONTENT entityId entityContent uploadedHashes alreadyStored = none) := by
  refine ⟨?_, ?_, ?_⟩
  · intro n h2 hmem hup hst
    have hmsg : notAvailableHashMessage h2 ∈
        contentMissingErrors entityContent uploadedHashes alreadyStored := by
      unfold contentMissingErrors
      refine List.mem_map.mpr ⟨(n, h2), ?_, rfl⟩
      refine List.mem_filter.mpr ⟨hmem, ?_⟩
      simp only [Bool.and_eq_true, Bool.not_eq_true']
      exact ⟨hup, hst⟩
    refine ⟨contentMissingErrors entityContent uploadedHashes alreadyStored ++
        contentOrphanErrors entityId entityContent uploadedHashes,
      ?_, List.mem_append_left _ hmsg⟩
    unfold Validations.CONTENT
    rw [if_neg]
    simp only [List.isEmpty_eq_true, List.append_eq_nil]
    rintro ⟨hcon, -⟩
    rw [hcon] at hmsg
    cases hmsg
  · intro h2 hup hnoref hne
    have hmsg : notReferencedHashMessage h2 ∈
        contentOrphanErrors entityId entityContent uploadedHashes := by
      unfold contentOrphanErrors
      refine List.mem_map.mpr ⟨h2, ?_, rfl⟩
      refine List.mem_filter.mpr ⟨hup, ?_⟩
      simp only [Bool.and_eq_true, Bool.not_eq_true', bne_iff_ne]
      exact ⟨hnoref, hne⟩
    refine ⟨contentMissingErrors entityContent uploadedHashes alreadyStored ++
        contentOrphanErrors entityId entityContent uploadedHashes,
      ?_, List.mem_append_right _ hmsg⟩
    unfold Validations.CONTENT
    rw [if_neg]
    simp only [List.isEmpty_eq_true, List.append_eq_nil]
    rintro ⟨-, hcon⟩
    rw [hcon] at hmsg
    cases hmsg
  · intro hrefs hups
    unfold Validations.CONTENT
    rw [if_pos]
    simp only [List.isEmpty_eq_true, List.append_eq_nil]
    constructor
    · unfold contentMissingErrors
      rw [List.map_eq_nil_iff, List.filter_eq_nil_iff]
      intro p hp
      simp only [Bool.and_eq_true, Bool.not_eq_true']
      rintro ⟨hc, hs⟩
      rcases hrefs p hp with h | h
      · rw [h] at hc; cases hc
      · rw [h] at hs; cases hs
    · unfold contentOrphanErrors
      rw [List.map_eq_nil_iff, List.filter_eq_nil_iff]
      intro h3 hh3
      simp only [Bool.and_eq_true, Bool.not_eq_true', bne_iff_ne]
      rintro ⟨hc, hne⟩
      rcases hups h3 hh3 with h | h
      · rw [h] at hc; cases hc
      · exact hne h

/-- C6 witness: referencing only `hash-1` while uploading `hash-1` and
`hash-2` is rejected with the orphan-upload error for `hash-2`; a missing
reference is rejected; and a fully consistent deployment passes. -/
theorem content_validation_spec_witness :
    (∃ errs, Validations.CONTENT "id" [("name-1", "hash-1")] ["hash-1", "hash-2"]
        (fun _ => false) = some errs ∧ notReferencedHashMessage "hash-2" ∈ errs) ∧
    (∃ errs, Validations.CONTENT "id" [("name", "hash")] [] (fun _ => false) = some errs ∧
        notAvailableHashMessage "hash" ∈ errs) ∧
    Validations.CONTENT "id" [("name", "hash")] ["hash"] (fun _ => false) = none :=
  ⟨(content_validation_spec "id" [("name-1", "hash-1")] ["hash-1", "hash-2"]
      (fun _ => false)).2.1 "hash-2" (by decide) (by decide) (by decide),
   (content_validation_spec "id" [("name", "hash")] [] (fun _ => false)).1
      "name" "hash" (by decide) (by decide) (by decide),
   (content_validation_spec "id" [("name", "hash")] ["hash"] (fun _ => false)).2.2
      (by intro p hp; simp at hp; simp [hp]) (by intro h2 hh2; simp at hh2; simp [hh2])⟩

/-- C7.  REQUEST_SIZE_V3 fails exactly when the sum of the uploaded file
sizes divided by the number of pointers exceeds the configured per-type cap
(in megabytes); in particular a 3 MB upload with one pointer under a 2 MB
cap fails, while the same upload with two pointers passes. -/
theorem request_size_v3_spec (uploadedFileSizes : List Nat) (pointers : List String)
    (maxSizeInMB : Rat) :
    (Validations.REQUEST_SIZE_V3 uploadedFileSizes pointers maxSizeInMB ≠ none ↔
      maxSizeInMB * 1024 * 1024 <
        (uploadedFileSizes.sum : Rat) / (pointers.length : Rat)) ∧
    Validations.REQUEST_SIZE_V3 [3 * 1024 * 1024] ["P1"] 2 ≠ none ∧
    Validations.REQUEST_SIZE_V3 [3 * 1024 * 1024] ["P1", "P2"] 2 = none := by
  refine ⟨?_, ?_, ?_⟩
  · unfold Validations.REQUEST_SIZE_V3
    by_cases hlt : maxSizeInMB * 1024 * 1024 <
        (uploadedFileSizes.sum : Rat) / (pointers.length : Rat)
    · rw [if_pos hlt]
      exact iff_of_true (by simp) hlt
    · rw [if_neg hlt]
      exact iff_of_false (by simp) hlt
  · unfold Validations.REQUEST_SIZE_V3
    rw [if_pos (by norm_num)]
    simp
  · unfold Validations.REQUEST_SIZE_V3
    rw [if_neg (by norm_num)]

/-- C7 witness: the exact threshold applied at a 3 MB upload against a 2 MB
per-pointer cap with one and with two pointers. -/
theorem request_size_v3_spec_witness :
    (Validations.REQUEST_SIZE_V3 [3 * 1024 * 1024] ["P1"] 2 ≠ none ↔
      (2 : Rat) * 1024 * 1024 < (([3 * 1024 * 1024] : List Nat).sum : Rat) /
        ((["P1"] : List String).length : Rat)) ∧
    Validations.REQUEST_SIZE_V3 [3 * 1024 * 1024] ["P1"] 2 ≠ none ∧
    Validations.REQUEST_SIZE_V3 [3 * 1024 * 1024] ["P1", "P2"] 2 = none :=
  ⟨(request_size_v3_spec [3 * 1024 * 1024] ["P1"] 2).1,
   (request_size_v3_spec [3 * 1024 * 1024] ["P1"] 2).2.1,
   (request_size_v3_spec [3 * 1024 * 1024] ["P1"] 2).2.2⟩

/-- C8, corrected.  A Redirect client's `isActive()` is false and its
`updateTimestamp` is a no-op (the client — in particular its
`lastKnownTimestamp` — is unchanged); `getStatus` is answered locally (name,
version "Unknown", `currentTime = lastKnownTimestamp`,
`lastImmutableTime = -1`) without consulting any peer; and its `getHistory`,
`getAuditInfo`, `getEntity` and `getContentFile` iterate over the
currently-Active peers, skipping a peer only when invoking its call throws
synchronously (the `try/catch` has no `await`), and return the first
remaining peer's promise outcome verbatim — fulfilment or rejection — trying
no further peer; the "Failed to distribute call among reachable servers"
error is raised only when every active peer's invocation throws
synchronously, in particular when there is no active peer. -/
theorem redirect_client_spec :
    (∀ c : RedirectContentServerClient, c.isActive = false) ∧
    (∀ (c : RedirectContentServerClient) (ts : Option Int),
      c.updateTimestamp ts = c ∧
      (c.updateTimestamp ts).lastKnownTimestamp = c.lastKnownTimestamp) ∧
    (∀ c : RedirectContentServerClient,
      c.getStatus = ⟨c.name, "Unknown", c.lastKnownTimestamp, some (-1)⟩) ∧
    (∀ (T : Type) (call : ContentServerClient → Except String (Except String T))
        (servers : List ContentServerClient),
      (∀ s ∈ servers, ∃ e, call s = .error e) →
      redirectCall servers call = .error "Failed to distribute call among reachable servers") ∧
    (∀ (T : Type) (call : ContentServerClient → Except String (Except String T))
        (pre post : List ContentServerClient) (s : ContentServerClient)
        (outcome : Except String T),
      (∀ p ∈ pre, ∃ e, call p = .error e) → call s = .ok outcome →
      redirectCall (pre ++ s :: post) call = outcome) ∧
    (∀ (c : RedirectContentServerClient) (fromTs : Int) (sn : Option String)
        (toTs : Option Int),
      c.getHistory fromTs sn toTs = redirectCall c.cluster (fun s => s.historyCall fromTs sn toTs)) ∧
    (∀ (c : RedirectContentServerClient) (t i : String),
      c.getAuditInfo t i = redirectCall c.cluster (fun s => s.auditCall t i)) ∧
    (∀ (c : RedirectContentServerClient) (t i : String),
      c.getEntity t i = redirectCall c.cluster (fun s => s.entityCall t i)) ∧
    (∀ (c : RedirectContentServerClient) (h2 : String),
      c.getContentFile h2 = redirectCall c.cluster (fun s => s.contentFileCall h2)) := by
  refine ⟨fun _ => rfl, fun _ _ => ⟨rfl, rfl⟩, fun _ => rfl, ?_, ?_,
    fun _ _ _ _ => rfl, fun _ _ _ => rfl, fun _ _ _ => rfl, fun _ _ => rfl⟩
  · intro T call servers hall
    induction servers with
    | nil => rfl
    | cons s rest ih =>
      obtain ⟨e, he⟩ := hall s (List.mem_cons_self _ _)
      unfold redirectCall
      rw [he]
      exact ih (fun p hp => hall p (List.mem_cons_of_mem _ hp))
  · intro T call pre post s outcome hpre hok
    induction pre with
    | nil =>
      rw [List.nil_append]
      unfold redirectCall
      rw [hok]
    | cons p rest ih =>
      obtain ⟨e, he⟩ := hpre p (List.mem_cons_self _ _)
      rw [List.cons_append]
      unfold redirectCall
      rw [he]
      exact ih (fun q hq => hpre q (List.mem_cons_of_mem _ hq))

/-- C8, counterexample.  Two violations of the claim on concrete clients:
(a) `getStatus` does not fan out — it answers locally and differs from the
active peer's status; (b) the calls that do iterate do not return the first
success — on a cluster whose first peer's promise rejects (its invocation
does not throw synchronously) while the second peer would succeed, the
redirect's `getHistory` returns the first peer's rejection and never tries
the second, so the call fails although an active peer succeeds. -/
theorem redirect_client_claim_counterexample :
    sampleRedirect.cluster = [samplePeer] ∧
    samplePeer.statusResult = ⟨"peer", "1.0", 999, some 7⟩ ∧
    sampleRedirect.getStatus = ⟨"down", "Unknown", 10, some (-1)⟩ ∧
    sampleRedirect.getStatus ≠ samplePeer.statusResult ∧
    sampleRedirect3.cluster = [rejectPeer, samplePeer] ∧
    rejectPeer.historyCall 0 none none = .ok (.error "network timeout") ∧
    samplePeer.historyCall 0 none none = .ok (.ok []) ∧
    sampleRedirect3.getHistory 0 none none = .error "network timeout" := by
  refine ⟨rfl, rfl, rfl, ?_, rfl, rfl, rfl, rfl⟩
  decide

/-- C8 witness: the corrected semantics at concrete clusters — a
synchronously-throwing peer is skipped and the next peer's fulfilled promise
is returned; a rejecting promise after a synchronous throw is returned
verbatim, with the succeeding third peer never consulted; with no active
peer the distribute error surfaces. -/
theorem redirect_client_spec_witness :
    sampleRedirect2.isActive = false ∧
    sampleRedirect2.updateTimestamp (some 99) = sampleRedirect2 ∧
    redirectCall ([failPeer] ++ samplePeer :: []) (fun s => s.auditCall "scene" "e1") =
      .ok ⟨7, "0xp", "s"⟩ ∧
    redirectCall ([failPeer] ++ rejectPeer :: [samplePeer])
        (fun s => s.auditCall "scene" "e1") =
      .error "network timeout" ∧
    redirectCall ([] : List ContentServerClient) (fun s => s.auditCall "scene" "e1") =
      .error "Failed to distribute call among reachable servers" :=
  ⟨redirect_client_spec.1 sampleRedirect2,
   (redirect_client_spec.2.1 sampleRedirect2 (some 99)).1,
   redirect_client_spec.2.2.2.2.1 AuditInfo (fun s => s.auditCall "scene" "e1")
     [failPeer] [] samplePeer (.ok ⟨7, "0xp", "s"⟩)
     (by intro p hp; simp at hp; subst hp; exact ⟨"down", rfl⟩) rfl,
   redirect_client_spec.2.2.2.2.1 AuditInfo (fun s => s.auditCall "scene" "e1")
     [failPeer] [samplePeer] rejectPeer (.error "network timeout")
     (by intro p hp; simp at hp; subst hp; exact ⟨"down", rfl⟩) rfl,
   redirect_client_spec.2.2.2.1 AuditInfo (fun s => s.auditCall "scene" "e1") []
     (by intro s hs; cases hs)⟩

/-- C9, on the code as written: `ServiceImpl.getStatus` answers with the
server's name, version "1.0" and the current time, and with NO
`lastImmutableTime` field — although the spec's status record (and the
repository's own end-to-end test reading `status.lastImmutableTime`) includes
one. -/
theorem getStatus_missing_lastImmutableTime :
    (∀ (serverName : String) (now : Int),
      ServiceImpl.getStatus serverName now = ⟨serverName, "1.0", now, none⟩) ∧
    ServiceImpl.getStatus "server1" 100 =
      { name := "server1", version := "1.0", currentTime := 100, lastImmutableTime := none } :=
  ⟨fun _ _ => rfl, rfl⟩

/-- C10.  On an entity whose content map is absent or empty, the blacklist
decorator's `deployEntity` throws even when the deploying address, pointers
and content are all unblacklisted: `areBlacklisted` reduces the empty list of
blacklist answers for the zero content targets with no initial value. -/
theorem blacklist_deploy_empty_content_throws (isBl : BlacklistTarget → Bool)
    (parse : File → String → Except String Entity) (inner : Except String Int)
    (files : List File) (entityId ethAddress : String) (f : File) (entity : Entity)
    (hbl : ∀ t, isBl t = false)
    (hf : findEntityFile files = .ok f)
    (hp : parse f entityId = .ok entity)
    (hc : entity.content = []) :
    BlacklistServiceDecorator.deployEntity isBl parse inner files entityId ethAddress =
      .error "Reduce of empty array with no initial value" := by
  have h1 : areBlacklisted isBl [buildAddressTarget ethAddress] = .ok false := by
    unfold areBlacklisted
    simp [hbl]
  unfold BlacklistServiceDecorator.deployEntity
  simp only [h1, hf, hp]
  simp [hc, areBlacklisted]

/-- C10 witness: a concrete deployment of an entity with an empty content
map, nothing blacklisted, throws the empty-reduce error. -/
theorem blacklist_deploy_empty_content_throws_witness :
    BlacklistServiceDecorator.deployEntity (fun _ => false)
        (fun _ id => .ok ⟨id, "scene", ["p1"], 5, []⟩) (.ok 7) sampleFiles
        "entity.json" "0xabc" =
      .error "Reduce of empty array with no initial value" :=
  blacklist_deploy_empty_content_throws (fun _ => false)
    (fun _ id => .ok ⟨id, "scene", ["p1"], 5, []⟩) (.ok 7) sampleFiles
    "entity.json" "0xabc" ⟨"entity.json", [1, 2]⟩ ⟨"entity.json", "scene", ["p1"], 5, []⟩
    (fun _ => rfl) rfl rfl rfl
